import Mathlib

/-!
Verification development for the tinydb_admin repository
(src/app.py and src/json_splitter.py), as a shallow embedding in Lean.

JSON values are modelled by `Jv`; Python `None` and JSON `null` are the
same runtime object in the source, so both are `Jv.null`.  Numbers are
modelled as integers (no claim involves floating point).  Python dicts
preserve insertion order and have unique keys; they are modelled as
association lists with first-match lookup.  Machine file paths are lists
of path segments.  Python exceptions that the source does not catch are
modelled with `Except PyErr`; functions where the source catches every
exception that can occur are total.
-/

/-- JSON value / Python object, as handled by `json.load`. -/
inductive Jv where
  | null
  | bool (b : Bool)
  | num (n : Int)
  | str (s : String)
  | arr (elems : List Jv)
  | obj (fields : List (String × Jv))
deriving Repr

instance : Inhabited Jv := ⟨Jv.null⟩

/-- Python exceptions that can escape the modelled code. -/
inductive PyErr where
  | attributeError
  | keyError
  | typeError
  | jsonDecodeError
deriving Repr, DecidableEq

/-- `isinstance(x, dict)`. -/
def Jv.isObjB : Jv → Bool
  | .obj _ => true
  | _ => false

/-- `isinstance(x, list)`. -/
def Jv.isArrB : Jv → Bool
  | .arr _ => true
  | _ => false

/-- Python `x is None` (JSON `null` is Python `None`). -/
def Jv.isNull : Jv → Bool
  | .null => true
  | _ => false

/-- First-match association-list lookup, i.e. Python dict lookup
(keys produced by `json.load` are unique, so first match is the match). -/
def lookupKv : List (String × Jv) → String → Option Jv
  | [], _ => none
  | p :: rest, k => if p.1 = k then some p.2 else lookupKv rest k

/-- Python `d.get(k)`: the value if present, `None` otherwise. -/
def objGet (kvs : List (String × Jv)) (k : String) : Jv :=
  (lookupKv kvs k).getD Jv.null

/-- Python truthiness of a JSON value (`if x:`). -/
def pyTruthy : Jv → Bool
  | .null => false
  | .bool b => b
  | .num n => n != 0
  | .str s => !s.isEmpty
  | .arr xs => !xs.isEmpty
  | .obj kvs => !kvs.isEmpty

/-- Python `s.isdigit()` restricted to ASCII digit strings (the only
digit strings the addresses in this system use). -/
def py_isdigit (s : String) : Bool :=
  !s.isEmpty && s.toList.all Char.isDigit

/-- Value of an ASCII digit string. -/
def digitsVal (cs : List Char) : Int :=
  cs.foldl (fun a c => a * 10 + ((c.toNat : Int) - 48)) 0

/-- Python `int(s)` on a path segment: an optional sign followed by
ASCII digits parses; everything else raises `ValueError` (`none`). -/
def pyInt (s : String) : Option Int :=
  match s.toList with
  | [] => none
  | c :: rest =>
    if c = '-' then
      if rest ≠ [] ∧ rest.all Char.isDigit then some (-(digitsVal rest)) else none
    else if c = '+' then
      if rest ≠ [] ∧ rest.all Char.isDigit then some (digitsVal rest) else none
    else if (c :: rest).all Char.isDigit then some (digitsVal (c :: rest)) else none

/-- Python `str.split('/')`. -/
def pySplitSlashAux : List Char → List Char → List String
  | [], acc => [String.mk acc.reverse]
  | c :: rest, acc =>
    if c = '/' then String.mk acc.reverse :: pySplitSlashAux rest []
    else pySplitSlashAux rest (c :: acc)

/-- Python `path.split('/')`. -/
def pySplitSlash (s : String) : List String :=
  pySplitSlashAux s.toList []

/-- Python `'/'.join(parts)`. -/
def joinSlash : List String → String
  | [] => ""
  | [x] => x
  | x :: y :: rest => x ++ "/" ++ joinSlash (y :: rest)

/-- Python `s.strip()`. -/
def py_strip (s : String) : String :=
  String.mk (((s.toList.dropWhile Char.isWhitespace).reverse.dropWhile Char.isWhitespace).reverse)

/-- Python `name.endswith('.json')`. -/
def py_endswith_json (name : String) : Bool :=
  (".json".toList).isSuffixOf name.toList

/-- Approximation of Python `str(x)` as used inside f-strings for labels.
Exact for the scalar values that actually reach those f-strings; the
rendering of composite values is abbreviated (no claim depends on it). -/
def pyStrApprox : Jv → String
  | .null => "None"
  | .bool b => if b then "True" else "False"
  | .num n => toString n
  | .str s => s
  | .arr _ => "<list>"
  | .obj _ => "<dict>"

/-! ## json_splitter.py -/

/-- `_sanitize_filename` (json_splitter.py:256): replace each of
`< > : " / \ | ? *` with an underscore, strip whitespace, default to
`unnamed` when empty. -/
def _sanitize_filename (name : String) : String :=
  let invalid : List Char := ['<', '>', ':', '\"', '/', '\\', '|', '?', '*']
  let replaced := String.mk (name.toList.map (fun c => if invalid.contains c then '_' else c))
  let stripped := py_strip replaced
  if stripped = "" then "unnamed" else stripped

/-- One entry of `structure_info['levels']`. -/
structure LevelRec where
  depth : Nat
  key : String
  element_count : Nat
  action : String
deriving Repr, DecidableEq

/-- The `structure_info` accumulator of `split_json_structure`, together
with the file-system writes the splitter performs (path, JSON written). -/
structure SplitState where
  levels : List LevelRec
  files_created : List (List String)
  directories_created : List (List String)
  writes : List (List String × Jv)
deriving Repr

/-- The `for key, value in data.items()` loops of `_process_level`
(json_splitter.py:168-171, 221-224, 231-235): write each child of an
object as its own `<sanitize(key)>.json` file inside `dirp`. -/
def _write_children (dirp : List String) (kvs : List (String × Jv)) (st : SplitState) : SplitState :=
  kvs.foldl
    (fun s p =>
      let f := dirp ++ [_sanitize_filename p.1 ++ ".json"]
      { s with writes := s.writes ++ [(f, p.2)], files_created := s.files_created ++ [f] })
    st

/-- `_process_level` (json_splitter.py:107-253).  `fuel` bounds the
recursion depth; the source recurses only from the depth-0 single-key
branch (to depth 1), so any `fuel ≥ 2` makes the exhaustion case
unreachable; `split_json_structure` passes `max_depth + 1`.
Returns the updated manifest state and the Python return value
(the node itself in the pass-through branches, `None` otherwise). -/
def _process_level (fuel : Nat) (data : Jv) (output_dir : List String)
    (current_depth max_depth threshold : Nat) (parent_key : String)
    (st : SplitState) : SplitState × Jv :=
  match data with
  | Jv.obj kvs =>
    if max_depth ≤ current_depth then (st, data)
    else
      let num_elements := kvs.length
      if current_depth = 0 ∧ num_elements = 1 then
        let single_key := (kvs.headD ("", Jv.null)).1
        let single_value := (kvs.headD ("", Jv.null)).2
        match single_value with
        | Jv.obj subKvs =>
          if threshold ≤ subKvs.length then
            let level_dir := output_dir ++ [_sanitize_filename single_key]
            let root_file := output_dir ++ ["root.json"]
            let st1 :=
              { st with
                directories_created := st.directories_created ++ [level_dir],
                writes := st.writes ++ [(root_file, Jv.obj [("path", Jv.str single_key)])],
                files_created := st.files_created ++ [root_file],
                levels := st.levels ++ [(⟨1, single_key, subKvs.length, "split"⟩ : LevelRec)] }
            (_write_children level_dir subKvs st1, Jv.null)
          else
            let st1 := { st with levels := st.levels ++ [(⟨1, single_key, subKvs.length, "continue"⟩ : LevelRec)] }
            match fuel with
            | 0 => (st1, Jv.null)
            | f + 1 =>
              _process_level f single_value output_dir 1 max_depth threshold single_key st1
        | _ =>
          let f := output_dir ++ [_sanitize_filename single_key ++ ".json"]
          ({ st with writes := st.writes ++ [(f, single_value)],
                     files_created := st.files_created ++ [f] }, Jv.null)
      else if threshold ≤ num_elements then
        let st1 := { st with levels := st.levels ++ [(⟨current_depth, parent_key, num_elements, "split"⟩ : LevelRec)] }
        let sub_dir := output_dir ++ [_sanitize_filename parent_key]
        if current_depth = 0 then
          let root_file := output_dir ++ ["root.json"]
          let st2 :=
            { st1 with
              directories_created := st1.directories_created ++ [sub_dir],
              writes := st1.writes ++ [(root_file, Jv.obj [("path", Jv.str parent_key)])],
              files_created := st1.files_created ++ [root_file] }
          (_write_children sub_dir kvs st2, Jv.null)
        else
          let st2 := { st1 with directories_created := st1.directories_created ++ [sub_dir] }
          (_write_children sub_dir kvs st2, Jv.null)
      else
        let f := output_dir ++ [_sanitize_filename parent_key ++ ".json"]
        ({ st with levels := st.levels ++ [(⟨current_depth, parent_key, num_elements, "save_as_is"⟩ : LevelRec)],
                   writes := st.writes ++ [(f, data)],
                   files_created := st.files_created ++ [f] }, Jv.null)
  | _ => (st, data)

/-- `split_json_structure` (json_splitter.py:53) on already-parsed data:
fresh manifest, recursion started at depth 0 with the input-file stem as
the parent key. -/
def split_json_structure (data : Jv) (output_dir : String)
    (max_depth threshold : Nat) (input_name : String) : SplitState × Jv :=
  _process_level (max_depth + 1) data [output_dir] 0 max_depth threshold input_name
    (⟨[], [], [], []⟩ : SplitState)

/-- `split_json_structure` including the `json.load` of the input file
(json_splitter.py:74): a file that fails to parse raises
`json.JSONDecodeError`, uncaught in `split_json_structure`. -/
def split_json_structure_from_file (parsed : Option Jv) (output_dir : String)
    (max_depth threshold : Nat) (input_name : String) : Except PyErr (SplitState × Jv) :=
  match parsed with
  | none => .error .jsonDecodeError
  | some data => .ok (split_json_structure data output_dir max_depth threshold input_name)

/-! ## app.py: SplitDirectoryTable / SplitDirectoryDB -/

/-- Identifier passed to `get(doc_id=...)`: `browse` passes
`int(parts[2])` when it parses, otherwise the raw string. -/
inductive IdKey where
  | int (n : Int)
  | str (s : String)
deriving Repr, DecidableEq

/-- Python `==` between a supplied id and the value of a document's
`_id` field (`doc.get('_id') == doc_id`).  A missing `_id` yields
Python `None` (`Jv.null`), which equals neither an int nor a str;
Python `True == 1` and `False == 0` hold. -/
def pyEqId (k : IdKey) (v : Jv) : Bool :=
  match k, v with
  | .int n, .num m => n == m
  | .int n, .bool b => (b && n == 1) || (!b && n == 0)
  | .str s, .str t => s == t
  | _, _ => false

/-- A loaded document: its sequential `doc_id` and its data
(`DocumentWithId`, app.py:24). -/
abbrev PDoc := Nat × Jv

/-- First loop of `SplitDirectoryTable.get` (app.py:70-73): find a
document by sequential `doc_id`. -/
def seqFind (docs : List PDoc) (n : Int) : Option Jv :=
  match docs with
  | [] => none
  | d :: rest => if ((d.1 : Int) == n) then some d.2 else seqFind rest n

/-- Second loop of `SplitDirectoryTable.get` (app.py:75-77): find the
first document whose `_id` field equals the supplied id. -/
def idFind (docs : List PDoc) (k : IdKey) : Option Jv :=
  match docs with
  | [] => none
  | d :: rest =>
    let idv := match d.2 with
      | Jv.obj kvs => objGet kvs "_id"
      | _ => Jv.null
    if pyEqId k idv then some d.2 else idFind rest k

/-- `SplitDirectoryTable.get` (app.py:66-78): an integer id is first
looked up by sequential identity; when that loop finds nothing the code
falls through to the `_id` loop; a non-integer id goes straight to the
`_id` loop; `None` when both fail. -/
def SplitDirectoryTable.get (docs : List PDoc) (k : IdKey) : Option Jv :=
  match k with
  | .int n =>
    match seqFind docs n with
    | some doc => some doc
    | none => idFind docs k
  | .str _ => idFind docs k

/-- Inner `for item in data` loop of `_load_documents` (app.py:55-58):
each dict element of an array shard becomes a document, the counter
advancing only on dict elements.  Returns the documents and the next
counter value. -/
def loadArrItems (xs : List Jv) (doc_id : Nat) : List PDoc × Nat :=
  match xs with
  | [] => ([], doc_id)
  | x :: rest =>
    match x with
    | Jv.obj kvs =>
      let (l, id2) := loadArrItems rest (doc_id + 1)
      ((doc_id, Jv.obj kvs) :: l, id2)
    | _ => loadArrItems rest doc_id

/-- Main loop of `_load_documents` (app.py:43-60) over the (sorted)
directory listing.  A file entry is `(name, parsed)` where `parsed` is
`none` when the file is empty or fails to parse — the source catches
`json.JSONDecodeError` and skips the file.  Non-`.json` files, scalar
JSON contents and parse failures contribute nothing; dict contents
contribute one document, list contents one document per dict element;
the id counter runs across files. -/
def loadLoop (files : List (String × Option Jv)) (doc_id : Nat) : List PDoc :=
  match files with
  | [] => []
  | (name, content) :: rest =>
    if py_endswith_json name then
      match content with
      | some (Jv.obj kvs) => (doc_id, Jv.obj kvs) :: loadLoop rest (doc_id + 1)
      | some (Jv.arr xs) =>
        let (l, id2) := loadArrItems xs doc_id
        l ++ loadLoop rest id2
      | _ => loadLoop rest doc_id
    else loadLoop rest doc_id

/-- Lexicographic code-point comparison of strings, i.e. Python `<=`
on `str` as used by `sorted`. -/
def charListLe : List Char → List Char → Bool
  | [], _ => true
  | _ :: _, [] => false
  | c :: cs, d :: ds =>
    if c.toNat < d.toNat then true
    else if d.toNat < c.toNat then false
    else charListLe cs ds

/-- Python `a <= b` on strings. -/
def strLe (a b : String) : Bool :=
  charListLe a.toList b.toList

/-- Stable insertion of a file entry into a name-sorted listing
(modelling Python `sorted(os.listdir(...))`). -/
def insertFile (x : String × Option Jv) : List (String × Option Jv) → List (String × Option Jv)
  | [] => [x]
  | y :: ys => if strLe x.1 y.1 then x :: y :: ys else y :: insertFile x ys

/-- `sorted(os.listdir(directory))` on a directory listing. -/
def sortFiles : List (String × Option Jv) → List (String × Option Jv)
  | [] => []
  | x :: xs => insertFile x (sortFiles xs)

/-- `SplitDirectoryTable._load_documents` (app.py:38-60): sort the
listing by filename, then load, numbering documents from 1. -/
def _load_documents (files : List (String × Option Jv)) : List PDoc :=
  loadLoop (sortFiles files) 1

/-- A sharded-store directory: the files at its root and its immediate
subdirectories, each file carried with its parse result (`none` for
unreadable/malformed content). -/
structure Directory where
  files : List (String × Option Jv)
  subdirs : List (String × List (String × Option Jv))

/-- Lookup of a file by name in a listing. -/
def lookupFile : List (String × Option Jv) → String → Option (Option Jv)
  | [], _ => none
  | p :: rest, k => if p.1 = k then some p.2 else lookupFile rest k

/-- Lookup of a subdirectory listing by name. -/
def lookupSubdir : List (String × List (String × Option Jv)) → String → Option (List (String × Option Jv))
  | [], _ => none
  | p :: rest, k => if p.1 = k then some p.2 else lookupSubdir rest k

/-- `SplitDirectoryDB._load_root_config` (app.py:91-98): parse
`root.json`; a missing or malformed file falls back to `{'path': ''}`
(both `FileNotFoundError` and `json.JSONDecodeError` are caught). -/
def _load_root_config (files : List (String × Option Jv)) : Jv :=
  match lookupFile files "root.json" with
  | some (some j) => j
  | some none => Jv.obj [("path", Jv.str "")]
  | none => Jv.obj [("path", Jv.str "")]

/-- The state a `SplitDirectoryDB` holds after `__init__`: the resolved
shard-directory listing (`tables_path`) and the single table name. -/
structure DBState where
  listing : List (String × Option Jv)
  tableName : String

/-- `SplitDirectoryDB.__init__` (app.py:82-89).  `root_config.get` on a
non-dict config raises `AttributeError`; `os.path.join` with a truthy
non-string path raises `TypeError`.  A truthy string path resolves to
that subdirectory (an absent subdirectory later loads no documents); a
falsy path resolves to the directory root with table name `default`. -/
def SplitDirectoryDB.init (dir : Directory) : Except PyErr DBState :=
  match _load_root_config dir.files with
  | Jv.obj kvs =>
    let p := (lookupKv kvs "path").getD (Jv.str "")
    if pyTruthy p then
      match p with
      | Jv.str s => .ok ⟨(lookupSubdir dir.subdirs s).getD [], s⟩
      | _ => .error .typeError
    else .ok ⟨dir.files, "default"⟩
  | _ => .error .attributeError

/-- `SplitDirectoryDB.tables` (app.py:100-103). -/
def SplitDirectoryDB.tables (db : DBState) : List String :=
  [db.tableName]

/-- A constructed `SplitDirectoryTable`: the name it was asked for and
the documents it loaded. -/
structure SplitTable where
  table_name : String
  documents : List PDoc

/-- `SplitDirectoryDB.table` (app.py:105-109): whatever the requested
name, the table is built over the one resolved `tables_path`. -/
def SplitDirectoryDB.table (db : DBState) (name : String) : SplitTable :=
  ⟨name, _load_documents db.listing⟩

/-- The string path recorded in the root config, when the config is a
dict whose `path` entry is a string (or absent, which defaults to `""`). -/
def cfgPathString (dir : Directory) : Option String :=
  match _load_root_config dir.files with
  | Jv.obj kvs =>
    match (lookupKv kvs "path").getD (Jv.str "") with
    | Jv.str s => some s
    | _ => none
  | _ => none

/-! ## app.py: build_breadcrumb -/

/-- Whether a path segment is label-suppressed in the breadcrumb
(app.py:212): `doc` and `field` contribute to the URL but get no entry. -/
def bb_suppressed (p : String) : Bool :=
  p == "doc" || p == "field"

/-- The label chosen for the entry of segment `part` at index `i`
(app.py:220-231): the collection name at index 0; after a `doc` token
the resolved document's `nome` field when the document is a truthy dict
carrying one, else `#<segment>`; otherwise the segment text.  Labels
are arbitrary Python values (the `nome` value is used unchecked). -/
def bbLabel (doc : Jv) (parts : List String) (i : Nat) (part : String) : Jv :=
  if i = 0 then Jv.str part
  else if 2 ≤ i ∧ parts.getD (i - 1) "" = "doc" then
    match doc with
    | Jv.obj kvs =>
      if pyTruthy (Jv.obj kvs) ∧ (lookupKv kvs "nome").isSome then objGet kvs "nome"
      else Jv.str ("#" ++ part)
    | _ => Jv.str ("#" ++ part)
  else Jv.str part

/-- The `while i < len(parts)` loop of `build_breadcrumb`
(app.py:202-239).  `i` is the current index, `cpp` the accumulated
`current_path_parts`, `rest` the remaining segments (`parts.drop i`).
Empty segments are skipped without touching `cpp`; suppressed segments
extend `cpp` but produce no entry; the entry at the final index carries
no URL. -/
def bbAux (doc : Jv) (parts : List String) : Nat → List String → List String → List (Option String × Jv)
  | _, _, [] => []
  | i, cpp, part :: rest =>
    if part = "" then bbAux doc parts (i + 1) cpp rest
    else
      let cpp2 := cpp ++ [part]
      if bb_suppressed part then bbAux doc parts (i + 1) cpp2 rest
      else
        let url := "/browse/" ++ joinSlash cpp2
        let label := bbLabel doc parts i part
        let entry := if i = parts.length - 1 then ((none : Option String), label) else (some url, label)
        entry :: bbAux doc parts (i + 1) cpp2 rest

/-- `build_breadcrumb` (app.py:187-241). -/
def build_breadcrumb (path : String) (doc : Jv) : List (Option String × Jv) :=
  if path = "" then [(some "/", Jv.str "Home")]
  else
    let parts := pySplitSlash path
    (some "/", Jv.str "Home") :: bbAux doc parts 0 [] parts

/-! ## app.py: browse — path navigation (app.py:306-540) -/

/-- `get_field_types` (app.py:175-185). -/
def get_field_types (doc : Jv) : List (String × String) :=
  match doc with
  | Jv.obj kvs =>
    kvs.map (fun p =>
      (p.1, match p.2 with
            | Jv.obj _ => "object"
            | Jv.arr _ => "array"
            | _ => "simple"))
  | _ => []

/-- The `field_type` classification used for `field_value` levels
(app.py:409-413, 453-457, 488-493): `object`, `array` or `simple`. -/
def jvKind (v : Jv) : String :=
  match v with
  | Jv.obj _ => "object"
  | Jv.arr _ => "array"
  | _ => "simple"

/-- One entry of `nested_levels` (app.py): either an
`{'type': 'array_document', ...}` dict — whose `base_path` key exists
only when built by the while loop at app.py:372-379 — or a
`{'type': 'field_value', ...}` dict. -/
inductive NLevel where
  | array_document (index : Nat) (document : Jv) (array_name : String)
      (field_types : List (String × String)) (base_path : Option String)
  | field_value (field_name : String) (field_value : Jv) (field_type : String)
      (parent_name : String)
deriving Repr

/-- State of the nested-array `while` loop of `browse` (app.py:353-391):
`cur` is `current_array_doc`, then `base_path_parts`,
`current_array_name`, `current_array_index`, `part_idx`, and the
`nested_levels` built so far. -/
structure LoopSt where
  cur : Jv
  basePathParts : List String
  arrName : Option String
  arrIdx : Option Nat
  partIdx : Nat
  acc : List NLevel
deriving Repr

/-- One iteration of the nested-array `while part_idx < len(parts) - 1`
loop of `browse` (app.py:357-391): consume an array-field name and an
in-range index, append an `array_document` level and descend
(`some` of the next state); any failure — loop condition false,
`current_array_doc` not a dict, field missing or not a list,
non-integer or out-of-range index — is the loop's `break` (`none`). -/
def navStep (parts : List String) (st : LoopSt) : Option LoopSt :=
  if st.partIdx < parts.length - 1 then
    let array_name := parts.getD st.partIdx ""
    let array_data := match st.cur with
      | Jv.obj kvs => objGet kvs array_name
      | _ => Jv.null
    match array_data with
    | Jv.arr xs =>
      if st.partIdx + 1 < parts.length then
        match pyInt (parts.getD (st.partIdx + 1) "") with
        | some i =>
          if 0 ≤ i ∧ i < (xs.length : Int) then
            let array_item := xs.getD i.toNat Jv.null
            let item_field_types := match array_item with
              | Jv.obj _ => get_field_types array_item
              | _ => []
            let bpp2 := st.basePathParts ++ [array_name ++ "/" ++ toString i.toNat]
            let base_path := joinSlash bpp2
            some
              ⟨array_item, bpp2, some array_name, some i.toNat, st.partIdx + 2,
               st.acc ++ [NLevel.array_document i.toNat array_item array_name item_field_types (some base_path)]⟩
          else none
        | none => none
      else none
    | _ => none
  else none

/-- The while loop itself: iterate `navStep` until it breaks.  `fuel`
bounds the iteration count; the loop advances `part_idx` by 2 each
iteration, so `fuel = parts.length` always suffices. -/
def navLoop (parts : List String) : Nat → LoopSt → LoopSt
  | 0, st => st
  | fuel + 1, st =>
    match navStep parts st with
    | some st2 => navLoop parts fuel st2
    | none => st

/-- The `if nested_levels:` update after the while loop (app.py:396-401):
when the innermost level is an `array_document`, `current_doc` becomes
its document and `current_doc_id` that document's `_id`
(`document.get('_id', "<name>[<index>]")`).  `document.get` raises
`AttributeError` when the array element is not a dict. -/
def updateFromLevels (acc : List NLevel) (curDoc curId : Jv) : Except PyErr (Jv × Jv) :=
  match acc.getLast? with
  | none => .ok (curDoc, curId)
  | some (NLevel.array_document idx document nm _ _) =>
    match document with
    | Jv.obj kvs =>
      .ok (document, (lookupKv kvs "_id").getD (Jv.str (nm ++ "[" ++ toString idx ++ "]")))
    | _ => .error .attributeError
  | some (NLevel.field_value _ _ _ _) => .ok (curDoc, curId)

/-- The "remaining parts are fields" step after the while loop
(app.py:403-421): when segments remain and the innermost array document
is a dict, a non-`None` field value yields one `field_value` level. -/
def fvAfterLoop (parts : List String) (partIdx : Nat) (cur : Jv)
    (arrName : Option String) (arrIdx : Option Nat) (curId : Jv) : List NLevel :=
  if partIdx < parts.length then
    match cur with
    | Jv.obj kvs =>
      let field_name := parts.getD partIdx ""
      let field_value := objGet kvs field_name
      if field_value.isNull = false then
        let parent_name := match arrName, arrIdx with
          | some nm, some i => nm ++ "[" ++ toString i ++ "]"
          | _, _ => "Documento " ++ pyStrApprox curId
        [NLevel.field_value field_name field_value (jvKind field_value) parent_name]
      else []
    | _ => []
  else []

/-- The `field`-branch special case (app.py:430-468): when the first
field-path segment names an array field of `current_doc` and the next
segment is an in-range index, an `array_document` level is produced
(plus at most one `field_value` level for the third segment; deeper
segments are not examined).  `none` means the case does not apply and
the plain field walk runs instead. -/
def field_array_case (doc : Jv) (fp : List String) : Option (List NLevel) :=
  match doc with
  | Jv.obj kvs =>
    let field_name := fp.headD ""
    match lookupKv kvs field_name with
    | some (Jv.arr xs) =>
      if 2 ≤ fp.length then
        match pyInt (fp.getD 1 "") with
        | some i =>
          if 0 ≤ i ∧ i < (xs.length : Int) then
            let array_item := xs.getD i.toNat Jv.null
            let item_field_types := match array_item with
              | Jv.obj _ => get_field_types array_item
              | _ => []
            let lvl := NLevel.array_document i.toNat array_item field_name item_field_types none
            let extra :=
              if 3 ≤ fp.length then
                let subfield_name := fp.getD 2 ""
                let subfield_value := match array_item with
                  | Jv.obj ikvs => objGet ikvs subfield_name
                  | _ => Jv.null
                if subfield_value.isNull = false then
                  [NLevel.field_value subfield_name subfield_value (jvKind subfield_value)
                    (field_name ++ "[" ++ toString i.toNat ++ "]")]
                else []
              else []
            some (lvl :: extra)
          else none
        | none => none
      else none
    | _ => none
  | _ => none

/-- The plain field walk of the `field` branch (app.py:472-485):
starting from `current_doc`, apply each segment as a dict key, or as an
index when the value is a list and the segment is all digits; any miss
sets the value to `None` and stops.  Python `None` doubles as JSON
`null`, exactly as in the source. -/
def fieldResolve : Jv → List String → Jv
  | cur, [] => cur
  | cur, f :: rest =>
    match cur with
    | Jv.obj kvs =>
      match lookupKv kvs f with
      | some v => fieldResolve v rest
      | none => Jv.null
    | Jv.arr xs =>
      if py_isdigit f then
        let i := ((pyInt f).getD 0).toNat
        if i < xs.length then fieldResolve (xs.getD i Jv.null) rest else Jv.null
      else Jv.null
    | _ => Jv.null

/-- The whole `field` branch (app.py:424-501): only taken when
`parts[3] == 'field'`; the array special case wins when it applies,
otherwise the plain walk emits one `field_value` level for a
non-`None` result. -/
def fieldBranch (parts : List String) (curDoc curId : Jv) : List NLevel :=
  if 5 ≤ parts.length ∧ parts.getD 3 "" = "field" then
    let fp := parts.drop 4
    match field_array_case curDoc fp with
    | some lvls => lvls
    | none =>
      let v := fieldResolve curDoc fp
      if v.isNull = false then
        [NLevel.field_value (fp.headD "") v (jvKind v) ("Documento " ++ pyStrApprox curId)]
      else []
  else []

/-- The document id `browse` passes to `table.get` (app.py:337-340):
`int(parts[2])` when it parses, else the raw string. -/
def docKeyOf (parts : List String) : IdKey :=
  match pyInt (parts.getD 2 "") with
  | some n => .int n
  | none => .str (parts.getD 2 "")

/-- The same id as the Python value stored in `current_doc_id`. -/
def docKeyJv (parts : List String) : Jv :=
  match pyInt (parts.getD 2 "") with
  | some n => Jv.num n
  | none => Jv.str (parts.getD 2 "")

/-- The navigation result of `browse` (app.py:316-501). -/
structure NavOut where
  currentDoc : Jv
  currentDocId : Jv
  rootDoc : Jv
  rootDocId : Jv
  nested : List NLevel
deriving Repr

/-- The navigation portion of `browse` (app.py:316-501) over an
already-loaded collection.  `db.table` never fails (a
`SplitDirectoryTable` is built for any name; TinyDB auto-creates
tables), so the collection is passed in directly.  The only uncaught
exception in this region is the `AttributeError` of
`updateFromLevels` (app.py:401); every other lookup is guarded or its
exception caught, a miss merely truncating `nested_levels`. -/
def browse_resolve (docs : List PDoc) (parts : List String) : Except PyErr NavOut :=
  let current_table := parts.getD 0 ""
  if current_table = "" then
    .ok ⟨Jv.null, Jv.null, Jv.null, Jv.null, []⟩
  else if 2 ≤ parts.length ∧ parts.getD 1 "" = "doc" ∧ 3 ≤ parts.length then
    let key := docKeyOf parts
    let keyJv := docKeyJv parts
    let doc0 := (SplitDirectoryTable.get docs key).getD Jv.null
    if pyTruthy doc0 ∧ doc0.isObjB ∧ 5 ≤ parts.length then
      let st := navLoop parts parts.length ⟨doc0, [], none, none, 3, []⟩
      match updateFromLevels st.acc doc0 keyJv with
      | .error e => .error e
      | .ok (doc1, id1) =>
        let acc2 := st.acc ++ fvAfterLoop parts st.partIdx st.cur st.arrName st.arrIdx id1
        let acc3 := acc2 ++ fieldBranch parts doc1 id1
        .ok ⟨doc1, id1, doc0, keyJv, acc3⟩
    else .ok ⟨doc0, keyJv, doc0, keyJv, []⟩
  else .ok ⟨Jv.null, Jv.null, Jv.null, Jv.null, []⟩

/-- Output of the trailing-index detection region (app.py:510-540). -/
structure ArrayItemOut where
  is_array_item : Bool
  item_index : Option Int
  item_parent_name : Option String
  current_array : Jv
  current_array_name : Option String
deriving Repr

/-- The trailing-index detection of `browse` (app.py:510-540).  The
final segment is treated as an array index exactly when it is all
digits, a preceding segment exists, and that segment is neither `doc`
nor `field`.  Inside the `try`, `int(parts[-1])` cannot raise on an
all-digit segment, so the `except (ValueError, IndexError)` arm is
dead; but `parent_level['document']` raises an uncaught `KeyError`
when `nested_levels[-2]` is a `field_value` level, and `.get` on a
non-dict document an uncaught `AttributeError`. -/
def arrayItemCalc (parts : List String) (root_doc : Jv) (nested : List NLevel) : Except PyErr ArrayItemOut :=
  if (py_isdigit (parts.getLastD "") ∧ 2 ≤ parts.length) then
    let lastp := parts.getLastD ""
    let prev := parts.getD (parts.length - 2) ""
    if prev ≠ "doc" ∧ prev ≠ "field" then
      let idx := (pyInt lastp).getD 0
      match root_doc with
      | Jv.obj kvs =>
        if pyTruthy (Jv.obj kvs) then
          if 1 < nested.length then
            match nested.getD (nested.length - 2) (NLevel.field_value "" Jv.null "" "") with
            | NLevel.array_document _ document _ _ _ =>
              match document with
              | Jv.obj dkvs => .ok ⟨true, some idx, some prev, objGet dkvs prev, some prev⟩
              | _ => .error .attributeError
            | NLevel.field_value _ _ _ _ => .error .keyError
          else .ok ⟨true, some idx, some prev, objGet kvs prev, some prev⟩
        else .ok ⟨true, some idx, some prev, Jv.null, none⟩
      | _ => .ok ⟨true, some idx, some prev, Jv.null, none⟩
    else .ok ⟨false, none, none, Jv.null, none⟩
  else .ok ⟨false, none, none, Jv.null, none⟩

/-! ## Auxiliary predicates and spec-side formulations -/

mutual

/-- Well-formedness for the amended C6 statement: every array element
anywhere inside the value is a dict.  The `browse` navigation descends
only into array elements; `updateFromLevels` dereferences the innermost
one with `.get`, which requires a dict. -/
def goodJv : Jv → Bool
  | .arr xs => goodElems xs
  | .obj kvs => goodFields kvs
  | _ => true

/-- All elements are dicts satisfying `goodJv`. -/
def goodElems : List Jv → Bool
  | [] => true
  | x :: rest => x.isObjB && goodJv x && goodElems rest

/-- All field values satisfy `goodJv`. -/
def goodFields : List (String × Jv) → Bool
  | [] => true
  | p :: rest => goodJv p.2 && goodFields rest

end

/-- Every `array_document` level carries a dict document. -/
def accADobj (acc : List NLevel) : Bool :=
  acc.all (fun l => match l with
    | NLevel.array_document _ d _ _ _ => d.isObjB
    | NLevel.field_value _ _ _ _ => true)

/-- The value of a document's `_id` field as `doc.get('_id')` sees it. -/
def idFieldOf (v : Jv) : Jv :=
  match v with
  | Jv.obj kvs => objGet kvs "_id"
  | _ => Jv.null

/-- Spec-side breadcrumb URL for the segment at index `j`: `/browse/`
followed by the non-empty segments walked up to and including index `j`. -/
def bbUrlPrefix (parts : List String) (j : Nat) : String :=
  "/browse/" ++ joinSlash ((parts.take (j + 1)).filter (fun p => p != ""))

/-- Spec-side condition for index `j` to produce a breadcrumb entry:
its segment is non-empty and not a suppressed token. -/
def bbKept (parts : List String) (j : Nat) : Bool :=
  parts.getD j "" != "" && !bb_suppressed (parts.getD j "")

/-- Indices of the segments that produce breadcrumb entries. -/
def bbIndices (parts : List String) : List Nat :=
  (List.range parts.length).filter (bbKept parts)

/-- Spec-side breadcrumb entry for index `j`: no URL at the final
index, otherwise the walked-prefix URL; label as `bbLabel`. -/
def bbEntry (doc : Jv) (parts : List String) (j : Nat) : Option String × Jv :=
  (if j = parts.length - 1 then none else some (bbUrlPrefix parts j),
   bbLabel doc parts j (parts.getD j ""))

/-! ## Helper lemmas -/

theorem _write_children_eq (dirp : List String) (kvs : List (String × Jv)) : ∀ (st : SplitState),
    _write_children dirp kvs st =
      { st with
        writes := st.writes ++ kvs.map (fun p => (dirp ++ [_sanitize_filename p.1 ++ ".json"], p.2)),
        files_created := st.files_created ++ kvs.map (fun p => dirp ++ [_sanitize_filename p.1 ++ ".json"]) } := by
  induction kvs with
  | nil => intro st; simp [_write_children]
  | cons p rest ih =>
    intro st
    simp only [_write_children, List.foldl_cons] at *
    rw [ih]
    simp [List.append_assoc]

theorem lookupFile_eq_none (files : List (String × Option Jv)) (k : String)
    (h : files.all (fun p => p.1 != k) = true) : lookupFile files k = none := by
  induction files with
  | nil => rfl
  | cons p rest ih =>
    simp only [List.all_cons, Bool.and_eq_true, bne_iff_ne] at h
    simp only [lookupFile, if_neg h.1]
    exact ih h.2

theorem seqFind_eq_find (n : Int) (docs : List PDoc) :
    seqFind docs n = (docs.find? (fun d => (d.1 : Int) == n)).map Prod.snd := by
  induction docs with
  | nil => rfl
  | cons d rest ih =>
    by_cases h : ((d.1 : Int) == n) = true
    · simp [seqFind, List.find?_cons, h]
    · simp only [Bool.not_eq_true] at h
      simp [seqFind, List.find?_cons, h, ih]

theorem idFind_eq_find (k : IdKey) (docs : List PDoc) :
    idFind docs k = (docs.find? (fun d => pyEqId k (idFieldOf d.2))).map Prod.snd := by
  induction docs with
  | nil => rfl
  | cons d rest ih =>
    show (if pyEqId k (idFieldOf d.2) = true then some d.2 else idFind rest k) = _
    by_cases h : pyEqId k (idFieldOf d.2) = true
    · have hfind : List.find? (fun d => pyEqId k (idFieldOf d.2)) (d :: rest) = some d :=
        List.find?_cons_of_pos rest h
      rw [if_pos h, hfind]
      rfl
    · have hfind : List.find? (fun d => pyEqId k (idFieldOf d.2)) (d :: rest) =
          List.find? (fun d => pyEqId k (idFieldOf d.2)) rest :=
        List.find?_cons_of_neg rest (by simpa using h)
      rw [if_neg h, hfind]
      exact ih

theorem seqFind_mem (n : Int) (v : Jv) (docs : List PDoc)
    (h : seqFind docs n = some v) : ∃ d, d ∈ docs ∧ d.2 = v := by
  induction docs with
  | nil => simp [seqFind] at h
  | cons d rest ih =>
    by_cases hd : ((d.1 : Int) == n) = true
    · simp only [seqFind, if_pos hd, Option.some.injEq] at h
      exact ⟨d, List.mem_cons_self d rest, h⟩
    · simp only [Bool.not_eq_true] at hd
      simp only [seqFind, hd, Bool.false_eq_true, if_false] at h
      obtain ⟨d2, hmem, hv⟩ := ih h
      exact ⟨d2, List.mem_cons_of_mem d hmem, hv⟩

theorem idFind_mem (k : IdKey) (v : Jv) (docs : List PDoc)
    (h : idFind docs k = some v) : ∃ d, d ∈ docs ∧ d.2 = v := by
  induction docs with
  | nil => simp [idFind] at h
  | cons d rest ih =>
    replace h : (if pyEqId k (idFieldOf d.2) = true then some d.2 else idFind rest k) = some v := h
    split at h
    · exact ⟨d, List.mem_cons_self d rest, (Option.some.injEq _ _).mp h⟩
    · obtain ⟨d2, hmem, hv⟩ := ih h
      exact ⟨d2, List.mem_cons_of_mem d hmem, hv⟩

theorem get_mem (docs : List PDoc) (k : IdKey) (v : Jv)
    (h : SplitDirectoryTable.get docs k = some v) : ∃ d, d ∈ docs ∧ d.2 = v := by
  cases k with
  | int n =>
    simp only [SplitDirectoryTable.get] at h
    cases hs : seqFind docs n with
    | none => rw [hs] at h; exact idFind_mem _ _ _ h
    | some w =>
      rw [hs] at h
      exact seqFind_mem n v docs (hs.trans h)
  | str s => exact idFind_mem _ _ _ h

theorem getLast?_mem_of_eq_some {α : Type} {l : List α} {a : α}
    (h : l.getLast? = some a) : a ∈ l := by
  have hx : a ∈ l.getLast? := by simp [Option.mem_def, h]
  obtain ⟨hne, hxa⟩ := List.mem_getLast?_eq_getLast hx
  rw [hxa]
  exact List.getLast_mem hne

theorem goodFields_lookup (kvs : List (String × Jv)) (f : String) (v : Jv)
    (hg : goodFields kvs = true) (hl : lookupKv kvs f = some v) : goodJv v = true := by
  induction kvs with
  | nil => simp [lookupKv] at hl
  | cons p rest ih =>
    simp only [goodFields, Bool.and_eq_true] at hg
    simp only [lookupKv] at hl
    by_cases hp : p.1 = f
    · rw [if_pos hp] at hl
      cases hl
      exact hg.1
    · rw [if_neg hp] at hl
      exact ih hg.2 hl

theorem goodElems_getD (xs : List Jv) (i : Nat)
    (hg : goodElems xs = true) (hi : i < xs.length) :
    (xs.getD i Jv.null).isObjB = true ∧ goodJv (xs.getD i Jv.null) = true := by
  induction xs generalizing i with
  | nil => simp at hi
  | cons x rest ih =>
    simp only [goodElems, Bool.and_eq_true] at hg
    cases i with
    | zero => exact ⟨hg.1.1, hg.1.2⟩
    | succ j =>
      simp only [List.getD_cons_succ]
      exact ih j hg.2 (by simpa using hi)

theorem accADobj_append (a b : List NLevel) :
    accADobj (a ++ b) = (accADobj a && accADobj b) := by
  simp [accADobj, List.all_append]

theorem updateFromLevels_ok (acc : List NLevel) (d i : Jv)
    (h : accADobj acc = true) : ∃ p, updateFromLevels acc d i = Except.ok p := by
  unfold updateFromLevels
  cases hl : acc.getLast? with
  | none => exact ⟨(d, i), rfl⟩
  | some l =>
    cases l with
    | array_document idx document nm ft bp =>
      have hmem : NLevel.array_document idx document nm ft bp ∈ acc := getLast?_mem_of_eq_some hl
      have hobj : document.isObjB = true := by
        have := (List.all_eq_true.mp h) _ hmem
        simpa using this
      cases document with
      | obj kvs => exact ⟨_, rfl⟩
      | null => simp [Jv.isObjB] at hobj
      | bool b => simp [Jv.isObjB] at hobj
      | num n => simp [Jv.isObjB] at hobj
      | str s => simp [Jv.isObjB] at hobj
      | arr xs => simp [Jv.isObjB] at hobj
    | field_value a b c e => exact ⟨(d, i), rfl⟩

theorem loadLoop_skip (name : String) (suf : List (String × Option Jv)) :
    ∀ (pre : List (String × Option Jv)) (k : Nat),
      loadLoop (pre ++ (name, (none : Option Jv)) :: suf) k = loadLoop (pre ++ suf) k := by
  intro pre
  induction pre with
  | nil =>
    intro k
    by_cases h : py_endswith_json name = true
    · simp [loadLoop, h]
    · simp only [Bool.not_eq_true] at h
      simp [loadLoop, h]
  | cons x rest ih =>
    intro k
    simp only [List.cons_append, loadLoop]
    by_cases hx : py_endswith_json x.1 = true
    · rw [if_pos hx, if_pos hx]
      cases hc : x.2 with
      | none => exact ih k
      | some j =>
        cases j with
        | obj kvs => simp [ih]
        | arr xs => simp [ih]
        | null => exact ih k
        | bool b => exact ih k
        | num n => exact ih k
        | str s => exact ih k
    · rw [if_neg hx, if_neg hx]
      exact ih k

/-! ## Claim theorems -/

/-- C1 (confirmed): for an input object with exactly one top-level key
`k` whose value is an object of at least `threshold` keys (and a
positive `max_depth`, as in every call the source makes),
`split_json_structure` writes `root.json = {"path": k}` at the output
root, creates directory `<out>/<sanitize(k)>/`, performs exactly one
write `<sanitize(childKey)>.json` per child directly under that
directory, and records the single level entry
`{depth 1, key k, element_count |v|, action split}`. -/
theorem C1_split_single_key (k : String) (kvs : List (String × Jv))
    (out input_name : String) (max_depth threshold : Nat)
    (hmd : 1 ≤ max_depth) (hthr : threshold ≤ kvs.length) :
    split_json_structure (Jv.obj [(k, Jv.obj kvs)]) out max_depth threshold input_name =
      ({ levels := [⟨1, k, kvs.length, "split"⟩],
         files_created :=
           [out, "root.json"] ::
             kvs.map (fun p => [out, _sanitize_filename k, _sanitize_filename p.1 ++ ".json"]),
         directories_created := [[out, _sanitize_filename k]],
         writes :=
           ([out, "root.json"], Jv.obj [("path", Jv.str k)]) ::
             kvs.map (fun p => ([out, _sanitize_filename k, _sanitize_filename p.1 ++ ".json"], p.2)) },
       Jv.null) := by
  have h0 : ¬ (max_depth ≤ 0) := by omega
  simp only [split_json_structure, _process_level]
  rw [if_neg h0]
  simp only [List.length_cons, List.length_nil, List.headD, and_self, if_true,
    eq_self_iff_true, and_true, true_and]
  rw [if_pos hthr, _write_children_eq]
  simp

/-- Witness for C1 at the example from the spec
(`{"AREE": {"a": ..., "b": ...}}`, defaults `max_depth 2`,
`threshold 2`). -/
theorem C1_split_single_key_witness :
    (1 ≤ 2 ∧ 2 ≤ ([("a", Jv.num 1), ("b", Jv.num 2)] : List (String × Jv)).length) ∧
    split_json_structure (Jv.obj [("AREE", Jv.obj [("a", Jv.num 1), ("b", Jv.num 2)])])
        "out" 2 2 "db" =
      ({ levels := [⟨1, "AREE", 2, "split"⟩],
         files_created := [["out", "root.json"], ["out", "AREE", "a.json"], ["out", "AREE", "b.json"]],
         directories_created := [["out", "AREE"]],
         writes := [(["out", "root.json"], Jv.obj [("path", Jv.str "AREE")]),
                    (["out", "AREE", "a.json"], Jv.num 1),
                    (["out", "AREE", "b.json"], Jv.num 2)] },
       Jv.null) :=
  ⟨⟨by omega, by simp⟩,
   by
    rw [C1_split_single_key "AREE" [("a", Jv.num 1), ("b", Jv.num 2)] "out" "db" 2 2
      (by omega) (by simp)]
    rfl⟩

/-- C2 counterexample: a non-object input (at depth 0, `max_depth 2`,
`threshold 2`) is returned unchanged by the recursive procedure — no
file is written, no directory is created and no `save_as_is` action is
recorded, contradicting the claim that such a node is written verbatim
to `<sanitize(key)>.json` with a `save_as_is` manifest entry. -/
theorem C2_counterexample :
    split_json_structure (Jv.arr [Jv.num 1, Jv.num 2]) "out" 2 2 "db" =
      ({ levels := [], files_created := [], directories_created := [], writes := [] },
       Jv.arr [Jv.num 1, Jv.num 2]) :=
  rfl

/-- C2 (corrected): whenever `_process_level` is called on a node that
is not an object, or at a depth at or beyond `max_depth`, it returns
the node unchanged and leaves the manifest untouched: nothing is
written and no action is recorded. -/
theorem C2_pass_through (fuel : Nat) (data : Jv) (output_dir : List String)
    (current_depth max_depth threshold : Nat) (parent_key : String) (st : SplitState)
    (h : data.isObjB = false ∨ max_depth ≤ current_depth) :
    _process_level fuel data output_dir current_depth max_depth threshold parent_key st =
      (st, data) := by
  cases data with
  | obj kvs =>
    rcases h with h | h
    · simp [Jv.isObjB] at h
    · simp only [_process_level]
      rw [if_pos h]
  | null => simp [_process_level]
  | bool b => simp [_process_level]
  | num n => simp [_process_level]
  | str s => simp [_process_level]
  | arr xs => simp [_process_level]

/-- Witness for C2 (corrected): an object node at depth 2 with
`max_depth 2` passes through unchanged. -/
theorem C2_pass_through_witness :
    ((Jv.obj [("a", Jv.num 1)]).isObjB = false ∨ 2 ≤ 2) ∧
    _process_level 3 (Jv.obj [("a", Jv.num 1)]) ["o"] 2 2 2 "k" ⟨[], [], [], []⟩ =
      (⟨[], [], [], []⟩, Jv.obj [("a", Jv.num 1)]) :=
  ⟨Or.inr (by omega),
   C2_pass_through 3 (Jv.obj [("a", Jv.num 1)]) ["o"] 2 2 2 "k" ⟨[], [], [], []⟩
     (Or.inr (by omega))⟩

/-- C4 counterexample: with a single document of sequential id 1 whose
`_id` field is the number 5, `get(5)` finds no sequential match and
then falls back to the `_id` loop, returning the document — the claim
that an integer id is matched only by sequential identity, never by
`_id`, would require `None`. -/
theorem C4_counterexample :
    seqFind [(1, Jv.obj [("_id", Jv.num 5)])] 5 = none ∧
    SplitDirectoryTable.get [(1, Jv.obj [("_id", Jv.num 5)])] (IdKey.int 5) =
      some (Jv.obj [("_id", Jv.num 5)]) :=
  ⟨rfl, rfl⟩

/-- C4 (corrected): an integer id is first matched by sequential
identity; when no sequential identity matches, it falls back to the
first document whose `_id` field equals the integer; a non-integer id
is matched by the first equal `_id` field; `None` when nothing
matches (the `find?` forms make "first" precise). -/
theorem C4_get_rule :
    (∀ (docs : List PDoc) (n : Int) (d : PDoc),
      docs.find? (fun d => (d.1 : Int) == n) = some d →
      SplitDirectoryTable.get docs (IdKey.int n) = some d.2) ∧
    (∀ (docs : List PDoc) (n : Int),
      docs.find? (fun d => (d.1 : Int) == n) = none →
      SplitDirectoryTable.get docs (IdKey.int n) =
        (docs.find? (fun d => pyEqId (IdKey.int n) (idFieldOf d.2))).map Prod.snd) ∧
    (∀ (docs : List PDoc) (s : String),
      SplitDirectoryTable.get docs (IdKey.str s) =
        (docs.find? (fun d => pyEqId (IdKey.str s) (idFieldOf d.2))).map Prod.snd) := by
  refine ⟨?_, ?_, ?_⟩
  · intro docs n d hfind
    have hs : seqFind docs n = some d.2 := by
      rw [seqFind_eq_find, hfind]
      rfl
    simp [SplitDirectoryTable.get, hs]
  · intro docs n hfind
    have hs : seqFind docs n = none := by
      rw [seqFind_eq_find, hfind]
      rfl
    simp only [SplitDirectoryTable.get, hs]
    exact idFind_eq_find _ _
  · intro docs s
    exact idFind_eq_find _ _

/-- Witness for C4 (corrected): sequential id 1 matches the first
document; the string id `"x"` matches by `_id`. -/
theorem C4_get_rule_witness :
    (List.find? (fun d => ((d.1 : Int) == 1)) [((1 : Nat), Jv.obj [("_id", Jv.str "x")])] =
      some (1, Jv.obj [("_id", Jv.str "x")])) ∧
    SplitDirectoryTable.get [((1 : Nat), Jv.obj [("_id", Jv.str "x")])] (IdKey.int 1) =
      some (Jv.obj [("_id", Jv.str "x")]) :=
  ⟨rfl, C4_get_rule.1 [((1 : Nat), Jv.obj [("_id", Jv.str "x")])] 1
    (1, Jv.obj [("_id", Jv.str "x")]) rfl⟩

/-- C7 counterexample: a sharded store whose shard directory contains a
malformed `bad.json` constructs without error, silently skipping the
malformed shard — contradicting the claim that a parse failure is
surfaced to the caller as a load error during store construction. -/
theorem C7_counterexample :
    SplitDirectoryDB.init
        ⟨[("root.json", some (Jv.obj [("path", Jv.str "t")]))],
         [("t", [("a.json", some (Jv.obj [("x", Jv.num 1)])), ("bad.json", none)])]⟩ =
      Except.ok ⟨[("a.json", some (Jv.obj [("x", Jv.num 1)])), ("bad.json", none)], "t"⟩ ∧
    (SplitDirectoryDB.table
        ⟨[("a.json", some (Jv.obj [("x", Jv.num 1)])), ("bad.json", none)], "t"⟩ "t").documents =
      [(1, Jv.obj [("x", Jv.num 1)])] :=
  ⟨rfl, rfl⟩

/-- C7 (corrected): a source file that fails to parse is fatal for a
split call — `split_json_structure` propagates `json.JSONDecodeError`
to its caller — but during Sharded Directory Store construction a
malformed shard file is not fatal: `_load_documents` skips it and
loads the remaining files exactly as if it were absent (id numbering
included). -/
theorem C7_malformed_input :
    (∀ (out : String) (max_depth threshold : Nat) (input_name : String),
      split_json_structure_from_file none out max_depth threshold input_name =
        Except.error PyErr.jsonDecodeError) ∧
    (∀ (pre suf : List (String × Option Jv)) (name : String) (k : Nat),
      loadLoop (pre ++ (name, (none : Option Jv)) :: suf) k = loadLoop (pre ++ suf) k) := by
  constructor
  · intro _ _ _ _
    rfl
  · intro pre suf name k
    exact loadLoop_skip name suf pre k

/-- C3 counterexample: a sharded directory whose `root.json` is
`{"path": ""}` resolves the shard directory to its own root, and
loading then parses `root.json` itself as a shard: the store yields a
second Document equal to the root config object, contradicting the
claim that `root.json` never contributes a Document. -/
theorem C3_counterexample :
    SplitDirectoryDB.init
        ⟨[("a.json", some (Jv.obj [("x", Jv.num 1)])),
          ("root.json", some (Jv.obj [("path", Jv.str "")]))], []⟩ =
      Except.ok ⟨[("a.json", some (Jv.obj [("x", Jv.num 1)])),
                  ("root.json", some (Jv.obj [("path", Jv.str "")]))], "default"⟩ ∧
    (SplitDirectoryDB.table
        ⟨[("a.json", some (Jv.obj [("x", Jv.num 1)])),
          ("root.json", some (Jv.obj [("path", Jv.str "")]))], "default"⟩ "default").documents =
      [(1, Jv.obj [("x", Jv.num 1)]), (2, Jv.obj [("path", Jv.str "")])] :=
  ⟨rfl, rfl⟩

/-- C3 (corrected): when `root.json` is absent the store resolves to
the directory root with table name `default` and its shard set is
exactly the directory's files — none of which is `root.json` — so
`root.json` contributes nothing; but when the config path is empty
while `root.json` is present, `root.json` is itself in the shard set
and is loaded as a document (see the counterexample). -/
theorem C3_no_root_json (dir : Directory)
    (h : dir.files.all (fun p => p.1 != "root.json") = true) :
    SplitDirectoryDB.init dir = Except.ok ⟨dir.files, "default"⟩ := by
  have hl : lookupFile dir.files "root.json" = none := lookupFile_eq_none _ _ h
  simp only [SplitDirectoryDB.init, _load_root_config, hl]
  rfl

/-- Witness for C3 (corrected) on a one-file directory without
`root.json`. -/
theorem C3_no_root_json_witness :
    (([("a.json", some (Jv.num 1))] : List (String × Option Jv)).all
        (fun p => p.1 != "root.json") = true) ∧
    SplitDirectoryDB.init ⟨[("a.json", some (Jv.num 1))], []⟩ =
      Except.ok ⟨[("a.json", some (Jv.num 1))], "default"⟩ :=
  ⟨by decide, C3_no_root_json ⟨[("a.json", some (Jv.num 1))], []⟩ (by decide)⟩

/-- C10 (confirmed): a constructed Sharded Directory Store has exactly
one table name — the configured subdirectory name, or `default` when
the configured path is empty — and `table(name)` ignores its argument:
any two names yield the same documents from the same resolved listing. -/
theorem C10_single_table (dir : Directory) (db : DBState)
    (h : SplitDirectoryDB.init dir = Except.ok db) :
    SplitDirectoryDB.tables db = [db.tableName] ∧
    (∀ n1 n2, (SplitDirectoryDB.table db n1).documents = (SplitDirectoryDB.table db n2).documents) ∧
    (∀ s, cfgPathString dir = some s → db.tableName = (if s = "" then "default" else s)) := by
  refine ⟨rfl, fun n1 n2 => rfl, ?_⟩
  intro s hs
  unfold cfgPathString at hs
  unfold SplitDirectoryDB.init at h
  cases hcfg : _load_root_config dir.files with
  | obj kvs =>
    rw [hcfg] at h hs
    dsimp only at h hs
    cases hp : (lookupKv kvs "path").getD (Jv.str "") with
    | str t =>
      rw [hp] at h hs
      have hst : t = s := by simpa using hs
      subst hst
      by_cases htr : pyTruthy (Jv.str t) = true
      · rw [if_pos htr] at h
        have hne : t ≠ "" := by
          intro he
          subst he
          exact absurd htr (by decide)
        have hdb : db = ⟨(lookupSubdir dir.subdirs t).getD [], t⟩ := by
          cases h
          rfl
        rw [hdb, if_neg hne]
      · rw [if_neg htr] at h
        have ht0 : t = "" := by
          cases hie : t.isEmpty with
          | true => exact (String.isEmpty_iff t).mp hie
          | false =>
            exfalso
            apply htr
            show (!t.isEmpty) = true
            rw [hie]
            rfl
        have hdb : db = ⟨dir.files, "default"⟩ := by
          cases h
          rfl
        rw [hdb, ht0, if_pos rfl]
    | null => rw [hp] at hs; simp at hs
    | bool b => rw [hp] at hs; simp at hs
    | num n => rw [hp] at hs; simp at hs
    | arr xs => rw [hp] at hs; simp at hs
    | obj kvs2 => rw [hp] at hs; simp at hs
  | null => rw [hcfg] at hs; simp at hs
  | bool b => rw [hcfg] at hs; simp at hs
  | num n => rw [hcfg] at hs; simp at hs
  | str t => rw [hcfg] at hs; simp at hs
  | arr xs => rw [hcfg] at hs; simp at hs

/-- Witness for C10 on a store whose config names subdirectory
`AREE`. -/
theorem C10_single_table_witness :
    (SplitDirectoryDB.init
        ⟨[("root.json", some (Jv.obj [("path", Jv.str "AREE")]))],
         [("AREE", [("a.json", some (Jv.obj [("nome", Jv.str "x")]))])]⟩ =
      Except.ok ⟨[("a.json", some (Jv.obj [("nome", Jv.str "x")]))], "AREE"⟩) ∧
    SplitDirectoryDB.tables ⟨[("a.json", some (Jv.obj [("nome", Jv.str "x")]))], "AREE"⟩ =
      ["AREE"] :=
  ⟨rfl,
   (C10_single_table
     ⟨[("root.json", some (Jv.obj [("path", Jv.str "AREE")]))],
      [("AREE", [("a.json", some (Jv.obj [("nome", Jv.str "x")]))])]⟩
     ⟨[("a.json", some (Jv.obj [("nome", Jv.str "x")]))], "AREE"⟩ rfl).1⟩

/-- C8 (confirmed): whenever the trailing-index region returns, the
final segment is treated as an array-element index exactly when it is
all digits, a preceding segment exists (`2 ≤ |parts|`), and the
preceding segment is neither `doc` nor `field`; so in `coll/doc/5`
the `5` is a document id, and in `coll/doc/5/arr/0` the `0` is an
array index. -/
theorem C8_trailing_index (parts : List String) (root_doc : Jv) (nested : List NLevel)
    (out : ArrayItemOut) (h : arrayItemCalc parts root_doc nested = Except.ok out) :
    out.is_array_item = true ↔
      (py_isdigit (parts.getLastD "") = true ∧ 2 ≤ parts.length ∧
       parts.getD (parts.length - 2) "" ≠ "doc" ∧ parts.getD (parts.length - 2) "" ≠ "field") := by
  unfold arrayItemCalc at h
  by_cases h1 : (py_isdigit (parts.getLastD "") = true ∧ 2 ≤ parts.length)
  · rw [if_pos h1] at h
    by_cases h2 : (parts.getD (parts.length - 2) "" ≠ "doc" ∧ parts.getD (parts.length - 2) "" ≠ "field")
    · rw [if_pos h2] at h
      constructor
      · exact fun _ => ⟨h1.1, h1.2, h2.1, h2.2⟩
      · intro _
        repeat' split at h
        all_goals first
          | (injection h with h3; subst h3; rfl)
          | simp at h
    · rw [if_neg h2] at h
      injection h with h3
      subst h3
      constructor
      · intro hf
        exact absurd hf (by simp)
      · intro hrhs
        exact (h2 ⟨hrhs.2.2.1, hrhs.2.2.2⟩).elim
  · rw [if_neg h1] at h
    injection h with h3
    subst h3
    constructor
    · intro hf
      exact absurd hf (by simp)
    · intro hrhs
      exact (h1 ⟨hrhs.1, hrhs.2.1⟩).elim

/-- Witness for C8 at `coll/doc/5/arr/0`: the region returns with
`is_array_item = true`, and the characterizing condition holds. -/
theorem C8_trailing_index_witness :
    (arrayItemCalc ["coll", "doc", "5", "arr", "0"] Jv.null [] =
      Except.ok ⟨true, some 0, some "arr", Jv.null, none⟩) ∧
    ((⟨true, some 0, some "arr", Jv.null, none⟩ : ArrayItemOut).is_array_item = true ↔
      (py_isdigit ((["coll", "doc", "5", "arr", "0"] : List String).getLastD "") = true ∧
       2 ≤ (["coll", "doc", "5", "arr", "0"] : List String).length ∧
       (["coll", "doc", "5", "arr", "0"] : List String).getD
         ((["coll", "doc", "5", "arr", "0"] : List String).length - 2) "" ≠ "doc" ∧
       (["coll", "doc", "5", "arr", "0"] : List String).getD
         ((["coll", "doc", "5", "arr", "0"] : List String).length - 2) "" ≠ "field")) :=
  ⟨rfl, C8_trailing_index ["coll", "doc", "5", "arr", "0"] Jv.null []
    ⟨true, some 0, some "arr", Jv.null, none⟩ rfl⟩

theorem bbAux_spec (doc : Jv) (parts : List String) :
    ∀ (n i : Nat), parts.length - i ≤ n →
      bbAux doc parts i ((parts.take i).filter (fun p => p != "")) (parts.drop i) =
        ((List.range' i (parts.length - i)).filter (bbKept parts)).map (bbEntry doc parts) := by
  intro n
  induction n with
  | zero =>
    intro i hi
    have hle : parts.length ≤ i := by omega
    rw [List.drop_eq_nil_of_le hle, Nat.sub_eq_zero_of_le hle]
    rfl
  | succ n ih =>
    intro i hi
    by_cases hlt : i < parts.length
    case neg =>
      have hle : parts.length ≤ i := by omega
      rw [List.drop_eq_nil_of_le hle, Nat.sub_eq_zero_of_le hle]
      rfl
    case pos =>
      have hdrop : parts.drop i = parts[i] :: parts.drop (i + 1) := List.drop_eq_getElem_cons hlt
      have hsub : parts.length - i = (parts.length - (i + 1)) + 1 := by omega
      have hgetD : parts.getD i "" = parts[i] := by
        simp [List.getD_eq_getElem?_getD, List.getElem?_eq_getElem hlt]
      have htake : parts.take (i + 1) = parts.take i ++ [parts[i]] := by
        rw [List.take_succ, List.getElem?_eq_getElem hlt]
        rfl
      have hcpp : (parts.take (i + 1)).filter (fun p => p != "") =
          (parts.take i).filter (fun p => p != "") ++ [parts[i]].filter (fun p => p != "") := by
        rw [htake, List.filter_append]
      rw [hdrop, hsub, List.range'_succ]
      simp only [bbAux]
      by_cases hemp : parts[i] = ""
      · rw [if_pos hemp]
        have hcpp0 : (parts.take (i + 1)).filter (fun p => p != "") =
            (parts.take i).filter (fun p => p != "") := by
          rw [hcpp, hemp]
          simp
        have hkept : bbKept parts i = false := by
          show ((parts.getD i "" != "") && !bb_suppressed (parts.getD i "")) = false
          rw [hgetD, hemp]
          decide
        rw [← hcpp0, ih (i + 1) (by omega)]
        simp [List.filter_cons, hkept]
      · rw [if_neg hemp]
        have hfilt1 : [parts[i]].filter (fun p => p != "") = [parts[i]] := by
          simp [hemp]
        have hcpp1 : (parts.take (i + 1)).filter (fun p => p != "") =
            (parts.take i).filter (fun p => p != "") ++ [parts[i]] := by
          rw [hcpp, hfilt1]
        by_cases hsup : bb_suppressed parts[i] = true
        · rw [if_pos hsup]
          have hkept : bbKept parts i = false := by
            show ((parts.getD i "" != "") && !bb_suppressed (parts.getD i "")) = false
            rw [hgetD, hsup]
            simp
          rw [← hcpp1, ih (i + 1) (by omega)]
          simp [List.filter_cons, hkept]
        · rw [if_neg hsup]
          simp only [Bool.not_eq_true] at hsup
          have hkept : bbKept parts i = true := by
            show ((parts.getD i "" != "") && !bb_suppressed (parts.getD i "")) = true
            rw [hgetD, hsup]
            simp [hemp]
          rw [← hcpp1, ih (i + 1) (by omega)]
          simp only [List.filter_cons, hkept, if_true]
          rw [List.map_cons]
          congr 1
          rw [bbEntry, hgetD]
          by_cases hlast : i = parts.length - 1
          · simp [hlast]
          · simp [hlast, bbUrlPrefix]

/-- C5 counterexample: for `coll/doc/5/field/x` on a document with
`nome = "Foo"`, the entry for the id segment carries the URL
`/browse/coll/doc/5` — the URL is built before the later `field`
token is walked — not `/browse/coll/doc/5/field` as claimed; and for
`coll/doc` the final non-suppressed segment `coll` does carry a URL
(only the segment in the final position loses its URL). -/
theorem C5_counterexample :
    build_breadcrumb "coll/doc/5/field/x" (Jv.obj [("nome", Jv.str "Foo")]) =
      [(some "/", Jv.str "Home"), (some "/browse/coll", Jv.str "coll"),
       (some "/browse/coll/doc/5", Jv.str "Foo"), (none, Jv.str "x")] ∧
    (build_breadcrumb "coll/doc/5/field/x" (Jv.obj [("nome", Jv.str "Foo")])).map Prod.fst ≠
      [some "/", some "/browse/coll", some "/browse/coll/doc/5/field", none] ∧
    build_breadcrumb "coll/doc" (Jv.obj [("nome", Jv.str "Foo")]) =
      [(some "/", Jv.str "Home"), (some "/browse/coll", Jv.str "coll")] :=
  ⟨rfl, by decide, rfl⟩

/-- C5 (corrected): for every non-empty path, the breadcrumb is `Home`
followed by one entry per non-empty, non-suppressed segment; the entry
for the segment at index `j` carries the URL `/browse/` plus the
slash-join of the non-empty segments walked up to and including index
`j` (a suppressed `doc`/`field` token contributes only once walked),
except that the segment at the final position carries no URL. -/
theorem C5_breadcrumb_shape (path : String) (doc : Jv) (h : path ≠ "") :
    build_breadcrumb path doc =
      (some "/", Jv.str "Home") ::
        (bbIndices (pySplitSlash path)).map (bbEntry doc (pySplitSlash path)) := by
  unfold build_breadcrumb
  rw [if_neg h]
  have hmain := bbAux_spec doc (pySplitSlash path) (pySplitSlash path).length 0 (by omega)
  simpa [bbIndices, List.range_eq_range'] using hmain

/-- Witness for C5 (corrected) at the spec's own example path, with
the corrected third URL. -/
theorem C5_breadcrumb_shape_witness :
    ("coll/doc/5/field/x" : String) ≠ "" ∧
    build_breadcrumb "coll/doc/5/field/x" (Jv.obj [("nome", Jv.str "Foo")]) =
      [(some "/", Jv.str "Home"), (some "/browse/coll", Jv.str "coll"),
       (some "/browse/coll/doc/5", Jv.str "Foo"), (none, Jv.str "x")] :=
  ⟨by decide,
   by
    rw [C5_breadcrumb_shape "coll/doc/5/field/x" (Jv.obj [("nome", Jv.str "Foo")]) (by decide)]
    rfl⟩


theorem accADobj_singleton_AD (i : Nat) (d : Jv) (nm : String)
    (ft : List (String × String)) (bp : Option String) :
    accADobj [NLevel.array_document i d nm ft bp] = d.isObjB := by
  simp [accADobj]

theorem navStep_inv (parts : List String) (st st2 : LoopSt)
    (h : navStep parts st = some st2)
    (h1 : goodJv st.cur = true) (h2 : accADobj st.acc = true) :
    goodJv st2.cur = true ∧ accADobj st2.acc = true := by
  unfold navStep at h
  dsimp only at h
  split at h
  case isTrue hpi =>
    split at h
    case h_1 xs harr =>
      split at h
      case isTrue hpi2 =>
        split at h
        case h_1 iv hint =>
          split at h
          case isTrue hrange =>
            injection h with h3
            subst h3
            have hxs : goodElems xs = true := by
              cases hcur : st.cur with
              | obj kvs =>
                rw [hcur] at harr h1
                have hgf : goodFields kvs = true := h1
                simp only [objGet] at harr
                cases hlk : lookupKv kvs (parts.getD st.partIdx "") with
                | none => rw [hlk] at harr; simp at harr
                | some v =>
                  rw [hlk] at harr
                  simp only [Option.getD_some] at harr
                  have hgv := goodFields_lookup kvs _ v hgf hlk
                  rw [harr] at hgv
                  exact hgv
              | null => rw [hcur] at harr; simp at harr
              | bool b => rw [hcur] at harr; simp at harr
              | num m => rw [hcur] at harr; simp at harr
              | str sv => rw [hcur] at harr; simp at harr
              | arr ys => rw [hcur] at harr; simp at harr
            have hlen : iv.toNat < xs.length := by omega
            have hitem := goodElems_getD xs iv.toNat hxs hlen
            constructor
            · exact hitem.2
            · rw [accADobj_append, accADobj_singleton_AD]
              simp only [Bool.and_eq_true]
              exact ⟨h2, hitem.1⟩
          case isFalse hrange => simp at h
        case h_2 hint => simp at h
      case isFalse hpi2 => simp at h
    case h_2 harr => simp at h
  case isFalse hpi => simp at h

theorem navLoop_inv (parts : List String) : ∀ (fuel : Nat) (st : LoopSt),
    goodJv st.cur = true → accADobj st.acc = true →
    goodJv (navLoop parts fuel st).cur = true ∧ accADobj (navLoop parts fuel st).acc = true := by
  intro fuel
  induction fuel with
  | zero =>
    intro st h1 h2
    exact ⟨h1, h2⟩
  | succ n ih =>
    intro st h1 h2
    rw [navLoop]
    cases hstep : navStep parts st with
    | none => exact ⟨h1, h2⟩
    | some st2 =>
      obtain ⟨g1, g2⟩ := navStep_inv parts st st2 hstep h1 h2
      exact ih st2 g1 g2

/-- C6 counterexample: browsing `t/doc/1/arr/0` in a store whose single
document is `{"arr": [1, 2]}` resolves every lookup successfully, then
raises an uncaught `AttributeError` at the `current_doc_id` update
(`last_level['document'].get('_id', ...)` on the non-dict array
element `1`), so navigation does not return normally for every
collection and address. -/
theorem C6_counterexample :
    browse_resolve [(1, Jv.obj [("arr", Jv.arr [Jv.num 1, Jv.num 2])])]
        ["t", "doc", "1", "arr", "0"] =
      Except.error PyErr.attributeError :=
  rfl

/-- C6 (corrected): every lookup miss truncates navigation without an
exception — in particular a missing document id yields a normal result
with no current document and an empty node chain — and navigation
returns normally on every address whenever every array element inside
every document is an object; but when a resolved array element is not
an object the region raises `AttributeError` (see the
counterexample). -/
theorem C6_lookup_miss_truncates (docs : List PDoc) (parts : List String)
    (h : docs.all (fun d => goodJv d.2) = true) :
    (∃ r, browse_resolve docs parts = Except.ok r) ∧
    (SplitDirectoryTable.get docs (docKeyOf parts) = none →
      ∃ r, browse_resolve docs parts = Except.ok r ∧ r.currentDoc = Jv.null ∧ r.nested = []) := by
  by_cases h0 : parts.getD 0 "" = ""
  case pos =>
    have hb : browse_resolve docs parts = .ok ⟨Jv.null, Jv.null, Jv.null, Jv.null, []⟩ := by
      simp only [browse_resolve]
      rw [if_pos h0]
    exact ⟨⟨_, hb⟩, fun _ => ⟨_, hb, rfl, rfl⟩⟩
  case neg =>
    by_cases h1 : (2 ≤ parts.length ∧ parts.getD 1 "" = "doc" ∧ 3 ≤ parts.length)
    case neg =>
      have hb : browse_resolve docs parts = .ok ⟨Jv.null, Jv.null, Jv.null, Jv.null, []⟩ := by
        simp only [browse_resolve]
        rw [if_neg h0, if_neg h1]
      exact ⟨⟨_, hb⟩, fun _ => ⟨_, hb, rfl, rfl⟩⟩
    case pos =>
      cases hget : SplitDirectoryTable.get docs (docKeyOf parts) with
      | none =>
        have hb : browse_resolve docs parts =
            .ok ⟨Jv.null, docKeyJv parts, Jv.null, docKeyJv parts, []⟩ := by
          simp only [browse_resolve]
          rw [if_neg h0, if_pos h1, hget]
          rw [if_neg (by simp [pyTruthy])]
          rfl
        exact ⟨⟨_, hb⟩, fun _ => ⟨_, hb, rfl, rfl⟩⟩
      | some v =>
        have hv : goodJv v = true := by
          obtain ⟨d, hmem, hdv⟩ := get_mem docs _ v hget
          have hgd := (List.all_eq_true.mp h) d hmem
          rw [hdv] at hgd
          exact hgd
        refine ⟨?_, fun hnone => by simp at hnone⟩
        by_cases h5 : (pyTruthy ((some v).getD Jv.null) = true ∧
            ((some v).getD Jv.null).isObjB = true ∧ 5 ≤ parts.length)
        case neg =>
          have hb : browse_resolve docs parts =
              .ok ⟨(some v).getD Jv.null, docKeyJv parts, (some v).getD Jv.null,
                   docKeyJv parts, []⟩ := by
            simp only [browse_resolve]
            rw [if_neg h0, if_pos h1, hget, if_neg h5]
          exact ⟨_, hb⟩
        case pos =>
          have hinv := navLoop_inv parts parts.length
            ⟨(some v).getD Jv.null, [], none, none, 3, []⟩ (by simpa using hv) rfl
          obtain ⟨⟨p1, p2⟩, hup⟩ := updateFromLevels_ok
            (navLoop parts parts.length ⟨(some v).getD Jv.null, [], none, none, 3, []⟩).acc
            ((some v).getD Jv.null) (docKeyJv parts) hinv.2
          refine ⟨?_, ?_⟩
          on_goal 2 =>
            simp only [browse_resolve]
            rw [if_neg h0, if_pos h1, hget, if_pos h5, hup]
            exact rfl

/-- Witness for C6 (corrected): a well-formed store and an address
whose document id is missing — navigation returns normally. -/
theorem C6_lookup_miss_truncates_witness :
    (([((1 : Nat), Jv.obj [("a", Jv.num 1)])] : List PDoc).all (fun d => goodJv d.2) = true) ∧
    (∃ r, browse_resolve [((1 : Nat), Jv.obj [("a", Jv.num 1)])] ["t", "doc", "9", "x", "y"] =
      Except.ok r) :=
  ⟨by decide,
   (C6_lookup_miss_truncates [((1 : Nat), Jv.obj [("a", Jv.num 1)])] ["t", "doc", "9", "x", "y"]
     (by decide)).1⟩

/-- C9 counterexample: for `t/doc/1/field/arr/0` on a document whose
`arr` field is an array of objects, the terminal lookup is emitted as
an `array_document` level (the field branch's array special case), not
as a `FieldValue` node — contradicting the claim that only the
terminal lookup is emitted as a `FieldValue` node. -/
theorem C9_counterexample :
    browse_resolve
        [(1, Jv.obj [("arr", Jv.arr [Jv.obj [("x", Jv.num 1)], Jv.obj [("x", Jv.num 2)]])])]
        ["t", "doc", "1", "field", "arr", "0"] =
      Except.ok
        ⟨Jv.obj [("arr", Jv.arr [Jv.obj [("x", Jv.num 1)], Jv.obj [("x", Jv.num 2)]])],
         Jv.num 1,
         Jv.obj [("arr", Jv.arr [Jv.obj [("x", Jv.num 1)], Jv.obj [("x", Jv.num 2)]])],
         Jv.num 1,
         [NLevel.array_document 0 (Jv.obj [("x", Jv.num 1)]) "arr" [("x", "simple")] none]⟩ :=
  rfl

/-- C9 (corrected): when the segment after the document id is the
literal `field`, the document has no field literally named `field`,
and the first field-path segment does not trigger the array special
case, traversal re-anchors at the root document and resolves the field
path from it segment by segment (dict key, or digit index on an
array); only the terminal lookup is emitted, as a `field_value` node
whose `field_type` matches the terminal value's JSON type, and nothing
is emitted when resolution fails.  (When the array special case does
apply, an `array_document` node is emitted instead — see the
counterexample.) -/
theorem C9_field_reanchor (docs : List PDoc) (parts : List String)
    (t idseg : String) (fp : List String) (doc : Jv) (kvs : List (String × Jv))
    (hparts : parts = t :: "doc" :: idseg :: "field" :: fp)
    (ht : t ≠ "") (hfp : fp ≠ [])
    (hget : SplitDirectoryTable.get docs (docKeyOf parts) = some doc)
    (hdoc : doc = Jv.obj kvs)
    (htr : pyTruthy doc = true)
    (hnf : lookupKv kvs "field" = none)
    (harr : field_array_case doc fp = none) :
    browse_resolve docs parts =
      Except.ok
        ⟨doc, docKeyJv parts, doc, docKeyJv parts,
         if (fieldResolve doc fp).isNull = false then
           [NLevel.field_value (fp.headD "") (fieldResolve doc fp)
             (jvKind (fieldResolve doc fp))
             ("Documento " ++ pyStrApprox (docKeyJv parts))]
         else []⟩ := by
  subst hparts
  subst hdoc
  have hfl : 1 ≤ fp.length := List.length_pos.mpr hfp
  have hLen : (t :: "doc" :: idseg :: "field" :: fp).length = fp.length + 4 := by simp
  have hstep : navStep (t :: "doc" :: idseg :: "field" :: fp)
      ⟨Jv.obj kvs, [], none, none, 3, []⟩ = none := by
    unfold navStep
    rw [if_pos (show (3 : Nat) < (t :: "doc" :: idseg :: "field" :: fp).length - 1 from by
      simp only [List.length_cons]
      omega)]
    dsimp only
    simp only [List.getD_cons_succ, List.getD_cons_zero]
    rw [objGet, hnf]
    rfl
  have hloop : ∀ m, navLoop (t :: "doc" :: idseg :: "field" :: fp) (m + 1)
      ⟨Jv.obj kvs, [], none, none, 3, []⟩ = ⟨Jv.obj kvs, [], none, none, 3, []⟩ := by
    intro m
    rw [navLoop, hstep]
  have hfv : fvAfterLoop (t :: "doc" :: idseg :: "field" :: fp) 3 (Jv.obj kvs) none none
      (docKeyJv (t :: "doc" :: idseg :: "field" :: fp)) = [] := by
    unfold fvAfterLoop
    rw [if_pos (show (3 : Nat) < (t :: "doc" :: idseg :: "field" :: fp).length from by
      simp only [List.length_cons]
      omega)]
    dsimp only
    simp only [List.getD_cons_succ, List.getD_cons_zero]
    rw [objGet, hnf]
    rfl
  have hfb : fieldBranch (t :: "doc" :: idseg :: "field" :: fp) (Jv.obj kvs)
      (docKeyJv (t :: "doc" :: idseg :: "field" :: fp)) =
      (if (fieldResolve (Jv.obj kvs) fp).isNull = false then
        [NLevel.field_value (fp.headD "") (fieldResolve (Jv.obj kvs) fp)
          (jvKind (fieldResolve (Jv.obj kvs) fp))
          ("Documento " ++ pyStrApprox (docKeyJv (t :: "doc" :: idseg :: "field" :: fp)))]
      else []) := by
    unfold fieldBranch
    rw [if_pos (show (5 ≤ (t :: "doc" :: idseg :: "field" :: fp).length ∧
        (t :: "doc" :: idseg :: "field" :: fp).getD 3 "" = "field") from
      ⟨by simp only [List.length_cons]; omega, rfl⟩)]
    dsimp only
    simp only [List.drop_succ_cons, List.drop_zero]
    rw [harr]
  simp only [browse_resolve]
  rw [if_neg (show ¬ ((t :: "doc" :: idseg :: "field" :: fp).getD 0 "" = "") from by
    simpa using ht)]
  rw [if_pos (show (2 ≤ (t :: "doc" :: idseg :: "field" :: fp).length ∧
      (t :: "doc" :: idseg :: "field" :: fp).getD 1 "" = "doc" ∧
      3 ≤ (t :: "doc" :: idseg :: "field" :: fp).length) from
    ⟨by simp only [List.length_cons]; omega, rfl, by simp only [List.length_cons]; omega⟩)]
  rw [hget]
  simp only [Option.getD_some]
  rw [if_pos (show (pyTruthy (Jv.obj kvs) = true ∧ (Jv.obj kvs).isObjB = true ∧
      5 ≤ (t :: "doc" :: idseg :: "field" :: fp).length) from
    ⟨htr, rfl, by simp only [List.length_cons]; omega⟩)]
  rw [show (t :: "doc" :: idseg :: "field" :: fp).length = (fp.length + 3) + 1 from by
    simp only [List.length_cons]]
  rw [hloop (fp.length + 3)]
  rw [show updateFromLevels ([] : List NLevel) (Jv.obj kvs)
      (docKeyJv (t :: "doc" :: idseg :: "field" :: fp)) =
      Except.ok (Jv.obj kvs, docKeyJv (t :: "doc" :: idseg :: "field" :: fp)) from rfl]
  dsimp only
  rw [hfv, hfb]
  simp

/-- Witness for C9 (corrected) at `coll/doc/1/field/x/y`: traversal
re-anchors at the root document and emits the single terminal
`field_value` node for `x/y` with kind `simple`. -/
theorem C9_field_reanchor_witness :
    (SplitDirectoryTable.get [((1 : Nat), Jv.obj [("x", Jv.obj [("y", Jv.num 7)])])]
        (docKeyOf ["coll", "doc", "1", "field", "x", "y"]) =
      some (Jv.obj [("x", Jv.obj [("y", Jv.num 7)])])) ∧
    browse_resolve [((1 : Nat), Jv.obj [("x", Jv.obj [("y", Jv.num 7)])])]
        ["coll", "doc", "1", "field", "x", "y"] =
      Except.ok
        ⟨Jv.obj [("x", Jv.obj [("y", Jv.num 7)])], Jv.num 1,
         Jv.obj [("x", Jv.obj [("y", Jv.num 7)])], Jv.num 1,
         [NLevel.field_value "x" (Jv.num 7) "simple" "Documento 1"]⟩ :=
  ⟨rfl,
   by
    rw [C9_field_reanchor [((1 : Nat), Jv.obj [("x", Jv.obj [("y", Jv.num 7)])])]
      ["coll", "doc", "1", "field", "x", "y"] "coll" "1" ["x", "y"]
      (Jv.obj [("x", Jv.obj [("y", Jv.num 7)])]) [("x", Jv.obj [("y", Jv.num 7)])]
      rfl (by decide) (by decide) rfl rfl rfl rfl rfl]
    rfl⟩
